import Mathlib

/-!
Verification of the Numis coin-scraper core (src/backend/scraper.py and
src/backend/scraper_2euros.py) against its natural-language specification.

The Python code is shallowly embedded: HTML documents become a `Node` tree,
BeautifulSoup tag queries become list searches over pre-order descendant
lists, the few regular expressions the code uses are modelled character by
character with Python's leftmost-then-backtracking semantics, network calls
are abstracted into explicit fetch oracles, and floats (only ever exact
decimal constants here) become rationals.  ASCII models are used for
`str.lower`, `str.strip` and `str.title`; the scraper only manipulates
ASCII-relevant class names, labels and keys.
-/

namespace Numis

/-! ## Python string primitives (ASCII model) -/

/-- Whitespace recognised by Python's `str.strip` / `\s` (ASCII part). -/
def isPyWs (c : Char) : Bool :=
  c == ' ' || c == '\t' || c == '\n' || c == '\r' || c == Char.ofNat 11 || c == Char.ofNat 12

def isAsciiDigit (c : Char) : Bool := '0' ≤ c && c ≤ '9'

def isAsciiUpper (c : Char) : Bool := 'A' ≤ c && c ≤ 'Z'

def isAsciiLower (c : Char) : Bool := 'a' ≤ c && c ≤ 'z'

def isAsciiAlpha (c : Char) : Bool := isAsciiUpper c || isAsciiLower c

/-- Word character for the regex `\b` boundary: `[A-Za-z0-9_]`. -/
def isWordChar (c : Char) : Bool := isAsciiAlpha c || isAsciiDigit c || c == '_'

def lowerChar (c : Char) : Char :=
  if isAsciiUpper c then Char.ofNat (c.toNat + 32) else c

def upperChar (c : Char) : Char :=
  if isAsciiLower c then Char.ofNat (c.toNat - 32) else c

/-- Python `str.lower()` (ASCII model). -/
def pyLower (s : String) : String := String.mk (s.toList.map lowerChar)

/-- Python `str.strip()`: drop leading and trailing whitespace. -/
def pyStripList (l : List Char) : List Char :=
  ((l.dropWhile isPyWs).reverse.dropWhile isPyWs).reverse

def pyStrip (s : String) : String := String.mk (pyStripList s.toList)

/-- Python slicing `s[:n]`. -/
def pyTake (n : Nat) (s : String) : String := String.mk (s.toList.take n)

/-- Python `str.replace(old, new)` for single characters. -/
def pyReplaceChar (a b : Char) (s : String) : String :=
  String.mk (s.toList.map (fun c => if c = a then b else c))

/-- Python `str.replace(c, '')`: remove every occurrence of a character. -/
def pyRemoveChar (a : Char) (s : String) : String :=
  String.mk (s.toList.filter (fun c => c ≠ a))

/-- Python `str.title()` (ASCII model): a letter is uppercased when the
previous character is not a letter, lowercased otherwise. -/
def pyTitleList : Bool → List Char → List Char
  | _, [] => []
  | prevAlpha, c :: rest =>
    let al := isAsciiAlpha c
    (if al then (if prevAlpha then lowerChar c else upperChar c) else c)
      :: pyTitleList al rest

def pyTitle (s : String) : String := String.mk (pyTitleList false s.toList)

/-- Python `sub in s` substring membership. -/
def containsSubList (needle : List Char) : List Char → Bool
  | [] => needle.isEmpty
  | c :: rest => needle.isPrefixOf (c :: rest) || containsSubList needle rest

def containsSub (hay sub : String) : Bool := containsSubList sub.toList hay.toList

/-- Python `str.startswith`. -/
def pyStartsWith (s prefixStr : String) : Bool := prefixStr.toList.isPrefixOf s.toList

/-- Python `s.split(sep, 1)[1]` for a single-character separator known to
occur in `s`: everything after the first occurrence. -/
def afterFirst (sep : Char) (s : String) : String :=
  String.mk ((s.toList.dropWhile (fun c => c ≠ sep)).tail)

/-- Value of a nonempty all-digit character list. -/
def digitsVal (ds : List Char) : Nat :=
  ds.foldl (fun n c => n * 10 + (c.toNat - 48)) 0

/-- Python `int(str)`: strip whitespace, optional sign, decimal digits;
anything else raises `ValueError` (modelled as `none`). -/
def pyIntParse (s : String) : Option Int :=
  match pyStripList s.toList with
  | [] => none
  | '+' :: ds => if ds ≠ [] ∧ ds.all isAsciiDigit then some (digitsVal ds) else none
  | '-' :: ds => if ds ≠ [] ∧ ds.all isAsciiDigit then some (-(digitsVal ds : Int)) else none
  | ds => if ds.all isAsciiDigit then some (digitsVal ds) else none

/-- Python `float(str)` restricted to the digit/dot strings produced by the
price regexes: at most one dot and at least one digit. -/
def pyFloatParse (s : String) : Option ℚ :=
  let l := s.toList
  if l.all (fun c => isAsciiDigit c || c == '.') then
    if l.count '.' = 0 then
      if l ≠ [] then some (digitsVal l : ℚ) else none
    else if l.count '.' = 1 then
      let ip := l.takeWhile (fun c => c ≠ '.')
      let fp := (l.dropWhile (fun c => c ≠ '.')).tail
      if ip = [] ∧ fp = [] then none
      else some ((digitsVal ip : ℚ) + (digitsVal fp : ℚ) / ((10 : ℚ) ^ fp.length))
    else none
  else none

/-! ## HTML document model (BeautifulSoup abstraction)

An element node carries its tag name, its (multi-valued) `class` attribute,
its remaining attributes and its children.  `find` / `find_all` search the
pre-order list of strict descendants, as BeautifulSoup does on a tag. -/

inductive Node where
  | text (s : String)
  | elem (tag : String) (classes : List String) (attrs : List (String × String))
      (children : List Node)

mutual

/-- Strict descendants of a node, in document (pre-) order. -/
def descendants : Node → List Node
  | .text _ => []
  | .elem _ _ _ ch => descendantsList ch

def descendantsList : List Node → List Node
  | [] => []
  | n :: ns => (n :: descendants n) ++ descendantsList ns

end

mutual

/-- BeautifulSoup `get_text()`: concatenation of all text fragments. -/
def pyGetText : Node → String
  | .text s => s
  | .elem _ _ _ ch => pyGetTextList ch

def pyGetTextList : List Node → String
  | [] => ""
  | n :: ns => pyGetText n ++ pyGetTextList ns

end

mutual

/-- BeautifulSoup `get_text(strip=True)`: each text fragment stripped. -/
def pyGetTextStrip : Node → String
  | .text s => pyStrip s
  | .elem _ _ _ ch => pyGetTextStripList ch

def pyGetTextStripList : List Node → String
  | [] => ""
  | n :: ns => pyGetTextStrip n ++ pyGetTextStripList ns

end

/-- BeautifulSoup `soup.find(pred)`: first strict descendant satisfying the predicate. -/
def findFirstP (p : Node → Bool) (n : Node) : Option Node := (descendants n).find? p

def isTag (t : String) : Node → Bool
  | .text _ => false
  | .elem t' _ _ _ => t' == t

/-- Tag query `find(['t1', 't2', ...])`: tag-name membership. -/
def isTagIn (ts : List String) : Node → Bool
  | .text _ => false
  | .elem t' _ _ _ => ts.contains t'

def hasClass (cls : String) : Node → Bool
  | .text _ => false
  | .elem _ cs _ _ => cs.contains cls

/-- Class filter `class_=re.compile('a|b|c', re.I)`: some class contains one of the
alternatives, case-insensitively. -/
def hasClassMatching (subs : List String) : Node → Bool
  | .text _ => false
  | .elem _ cs _ _ => cs.any (fun c => subs.any (fun sub => containsSub (pyLower c) sub))

/-- Attribute lookup `tag.get(key, default)` on the attribute dictionary. -/
def attrGetD (n : Node) (key dflt : String) : String :=
  match n with
  | .text _ => dflt
  | .elem _ _ attrs _ => (((attrs.find? (fun a => a.1 == key))).map Prod.snd).getD dflt

/-! ## Regex models

Each regular expression the scrapers use is modelled directly, with
`re.search`'s leftmost-match rule and the backtracking behaviour of the
greedy `[:\s]+` separator. -/

def isColonWs (c : Char) : Bool := c == ':' || isPyWs c

def isDigitCommaWs (c : Char) : Bool := isAsciiDigit c || c == ',' || isPyWs c

def isDigitCommaDot (c : Char) : Bool := isAsciiDigit c || c == ',' || c == '.'

/-- Case-insensitive literal match: returns the remaining input.  The
literal is given lowercased. -/
def dropLitCI : List Char → List Char → Option (List Char)
  | [], s => some s
  | _ :: _, [] => none
  | lc :: lt, c :: ct => if lowerChar c = lc then dropLitCI lt ct else none

/-- Backtracking for `[:\s]+([0-9,\s]+)` after the literal: the greedy
separator gives characters back (from `k = runLength` down to `1`) until the
capture group can take at least one character. -/
def issuingCapture (rest : List Char) : Nat → Option (List Char)
  | 0 => none
  | k + 1 =>
    let cap := (rest.drop (k + 1)).takeWhile isDigitCommaWs
    if cap ≠ [] then some cap else issuingCapture rest k

/-- Match `Issuing volume[:\s]+([0-9,\s]+)` (re.I) at the current position,
returning group 1. -/
def matchIssuingAt (s : List Char) : Option (List Char) :=
  match dropLitCI "issuing volume".toList s with
  | none => none
  | some rest =>
    let a := (rest.takeWhile isColonWs).length
    if a = 0 then none else issuingCapture rest a

/-- Search `re.search(r'Issuing volume[:\s]+([0-9,\s]+)', text, re.I)`. -/
def searchIssuingList : List Char → Option (List Char)
  | [] => none
  | c :: cs =>
    match matchIssuingAt (c :: cs) with
    | some cap => some cap
    | none => searchIssuingList cs

def searchIssuing (s : String) : Option String := (searchIssuingList s.toList).map String.mk

/-- Match `(20\d{2})` with word boundaries at the current position; `prev`
is the character before the position (`none` at the start of the string). -/
def yearAt (prev : Option Char) : List Char → Option Int
  | '2' :: '0' :: d1 :: d2 :: rest =>
    if (match prev with | none => true | some c => !isWordChar c)
        && isAsciiDigit d1 && isAsciiDigit d2
        && (match rest with | [] => true | c :: _ => !isWordChar c) then
      some (2000 + (d1.toNat - 48) * 10 + (d2.toNat - 48) : Int)
    else none
  | _ => none

/-- Search for a four-digit year `20..` with word boundaries, as the parsed integer. -/
def searchYearList (prev : Option Char) : List Char → Option Int
  | [] => none
  | c :: cs =>
    match yearAt prev (c :: cs) with
    | some y => some y
    | none => searchYearList (some c) cs

def searchYear (s : String) : Option Int := searchYearList none s.toList

/-- Common suffix `[:\s]+([0-9,.]+)` of the mintage regex (the capture class
is disjoint from the separator class, so no backtracking can succeed). -/
def mintageSuffix (rest : List Char) : Option (List Char) :=
  let run := rest.takeWhile isColonWs
  if run = [] then none
  else
    let cap := (rest.drop run.length).takeWhile isDigitCommaDot
    if cap = [] then none else some cap

/-- Match `(?:mintage|tirage|tiragem)[:\s]+([0-9,.]+)` (re.I) at the current
position; the alternatives are tried left to right. -/
def matchMintageAt (s : List Char) : Option (List Char) :=
  match dropLitCI "mintage".toList s with
  | some rest =>
    match mintageSuffix rest with
    | some cap => some cap
    | none => matchTirageAt s
  | none => matchTirageAt s
where
  matchTirageAt (s : List Char) : Option (List Char) :=
    match dropLitCI "tirage".toList s with
    | some rest =>
      match mintageSuffix rest with
      | some cap => some cap
      | none => matchTiragemAt s
    | none => matchTiragemAt s
  matchTiragemAt (s : List Char) : Option (List Char) :=
    match dropLitCI "tiragem".toList s with
    | some rest => mintageSuffix rest
    | none => none

def searchMintageList : List Char → Option (List Char)
  | [] => none
  | c :: cs =>
    match matchMintageAt (c :: cs) with
    | some cap => some cap
    | none => searchMintageList cs

def searchMintage (s : String) : Option String := (searchMintageList s.toList).map String.mk

/-- Suffix `[:\s]+[€$]?([0-9,.]+)` of the price regexes.  Only the maximal
separator run can succeed (currency and capture classes are disjoint from
the separator class); the optional currency sign is consumed greedily. -/
def priceSuffix (rest : List Char) : Option (List Char) :=
  let run := rest.takeWhile isColonWs
  if run = [] then none
  else
    match rest.drop run.length with
    | c :: after =>
      if c == '€' || c == '$' then
        let cap := after.takeWhile isDigitCommaDot
        if cap = [] then none else some cap
      else
        let cap := (c :: after).takeWhile isDigitCommaDot
        if cap = [] then none else some cap
    | [] => none

/-- Match `LIT[:\s]+[€$]?([0-9,.]+)` (re.I) at the current position. -/
def matchPriceAt (lit : List Char) (s : List Char) : Option (List Char) :=
  match dropLitCI lit s with
  | none => none
  | some rest => priceSuffix rest

def searchPriceList (lit : List Char) : List Char → Option (List Char)
  | [] => none
  | c :: cs =>
    match matchPriceAt lit (c :: cs) with
    | some cap => some cap
    | none => searchPriceList lit cs

/-- Search `re.search(LIT + r'[:\s]+[€$]?([0-9,.]+)', text, re.I)`, group 1. -/
def searchPrice (lit : String) (s : String) : Option String :=
  (searchPriceList lit.toList s.toList).map String.mk

/-! ## Data model

Every dict literal the scrapers surface (scraper.py lines 195-204, 228-429;
scraper_2euros.py lines 131-140, 172-181; the merge composite at lines
80-89 of scraper.py) populates exactly the same eight keys, so a record is
embedded as a total structure.  Monetary floats (always exact decimal
constants) are rationals. -/

structure CoinRecord where
  country : String
  year : Int
  description : String
  mintage : Int
  image_url : String
  value_fdc : ℚ
  value_bu : ℚ
  value_be : ℚ
deriving DecidableEq

/-- The field names of the record dict, in the order every construction
site lists them. -/
def fieldNames : List String :=
  ["country", "year", "description", "mintage", "image_url",
   "value_fdc", "value_bu", "value_be"]

/-- A Python value (string, int or float) in a record dict. -/
inductive PyVal where
  | s (v : String)
  | i (v : Int)
  | q (v : ℚ)
deriving DecidableEq

/-- The record viewed as the association list the Python dict holds. -/
def recordFields (r : CoinRecord) : List (String × PyVal) :=
  [("country", .s r.country), ("year", .i r.year), ("description", .s r.description),
   ("mintage", .i r.mintage), ("image_url", .s r.image_url),
   ("value_fdc", .q r.value_fdc), ("value_bu", .q r.value_bu), ("value_be", .q r.value_be)]

/-- Dictionary lookup `dict.get(key, default)` for the base-value tables. -/
def dictGetD (d : List (String × ℚ)) (k : String) (dflt : ℚ) : ℚ :=
  (((d.find? (fun e => e.1 == k))).map Prod.snd).getD dflt

/-! ## TwoEurosScraper (src/backend/scraper_2euros.py) -/

namespace TwoEurosScraper

/-- Attribute `self.base_url` set in `__init__` (line 14). -/
def base_url : String := "https://www.2euros.org"

/-- Function `estimate_value` (scraper_2euros.py lines 212-225). -/
def estimate_value (mintage : Int) (condition : String) : ℚ :=
  let base_values : List (String × ℚ) :=
    if mintage < 100000 then [("fdc", 15.0), ("bu", 30.0), ("be", 60.0)]
    else if mintage < 500000 then [("fdc", 8.0), ("bu", 15.0), ("be", 30.0)]
    else if mintage < 1000000 then [("fdc", 5.0), ("bu", 10.0), ("be", 20.0)]
    else if mintage < 5000000 then [("fdc", 4.0), ("bu", 7.0), ("be", 14.0)]
    else [("fdc", 3.0), ("bu", 5.0), ("be", 10.0)]
  dictGetD base_values condition 4.0

/-- Result of `extract_prices` (lines 183-210): the optional fdc/bu/be
prices found in the text (a key is absent when the regex finds nothing or
`float()` fails). -/
structure Prices where
  fdc : Option ℚ
  bu : Option ℚ
  be : Option ℚ

def priceVal (lit : String) (text : String) : Option ℚ :=
  match searchPrice lit text with
  | none => none
  | some cap => pyFloatParse (pyReplaceChar ',' '.' cap)

/-- Function `extract_prices` (lines 183-210). -/
def extract_prices (text : String) : Prices :=
  { fdc := priceVal "fdc" text, bu := priceVal "bu" text, be := priceVal "be" text }

/-- Function `extract_coin_from_article` (lines 91-140). -/
def extract_coin_from_article (article : Node) (country : String) : Option CoinRecord :=
  match findFirstP (isTag "img") article with
  | none => none
  | some img =>
    let image_url0 :=
      let src := attrGetD img "src" ""
      if src ≠ "" then src else attrGetD img "data-src" ""
    let image_url :=
      if image_url0 ≠ "" ∧ ¬(pyStartsWith image_url0 "http") then base_url ++ image_url0
      else image_url0
    let title :=
      match findFirstP (isTagIn ["h1", "h2", "h3", "h4", "a"]) article with
      | some title_elem => pyGetTextStrip title_elem
      | none => ""
    let text := pyGetText article
    match searchYear text with
    | none => none
    | some year =>
      let mintage : Int :=
        match searchMintage text with
        | none => 1000000
        | some cap =>
          (pyIntParse (pyStrip (pyRemoveChar '.' (pyRemoveChar ',' cap)))).getD 1000000
      let prices := extract_prices text
      some {
        country := pyTitle (pyReplaceChar '-' ' ' country)
        year := year
        description := if title ≠ "" then pyTake 200 title
                       else "Pièce commémorative " ++ toString year
        mintage := mintage
        image_url := image_url
        value_fdc := prices.fdc.getD (estimate_value mintage "fdc")
        value_bu := prices.bu.getD (estimate_value mintage "bu")
        value_be := prices.be.getD (estimate_value mintage "be") }

/-- First nonempty string wins; later empty assignments are invisible
because the accumulator starts empty.  Models the `for elem in [...]`
title-search loop of `extract_coin_from_container` (lines 152-160). -/
def firstNonemptyTitle : List String → String
  | [] => ""
  | s :: rest => if s ≠ "" then s else firstNonemptyTitle rest

/-- Function `extract_coin_from_container` (lines 142-181).  The tree model has no
parent pointers, so `container.parent` and `container.find_next_sibling()`
are passed explicitly (either may be `None`). -/
def extract_coin_from_container (container : Node) (parent nextSibling : Option Node)
    (country : String) : Option CoinRecord :=
  match findFirstP (isTag "img") container with
  | none => none
  | some img =>
    let image_url0 :=
      let src := attrGetD img "src" ""
      if src ≠ "" then src else attrGetD img "data-src" ""
    let image_url :=
      if image_url0 ≠ "" ∧ ¬(pyStartsWith image_url0 "http") then base_url ++ image_url0
      else image_url0
    let title := firstNonemptyTitle
      (([some container, parent, nextSibling].filterMap id).filterMap
        (fun e => (findFirstP (isTagIn ["h1", "h2", "h3", "h4", "a", "p"]) e).map
          pyGetTextStrip))
    let yearOpt := if title ≠ "" then searchYear title else none
    match yearOpt with
    | none => none
    | some year =>
      some {
        country := pyTitle (pyReplaceChar '-' ' ' country)
        year := year
        description := if title ≠ "" then pyTake 200 title
                       else "Pièce commémorative " ++ toString year
        mintage := 1000000
        image_url := image_url
        value_fdc := estimate_value 1000000 "fdc"
        value_bu := estimate_value 1000000 "bu"
        value_be := estimate_value 1000000 "be" }

end TwoEurosScraper

/-! ## CoinScraper (src/backend/scraper.py) -/

namespace CoinScraper

/-- Attribute `self.base_url_ecb` set in `__init__` (line 15).  Note the class never
defines `self.base_url`; line 167 nevertheless reads that attribute. -/
def base_url_ecb : String := "https://www.ecb.europa.eu"

/-- Function `estimate_value` (scraper.py lines 206-220). -/
def estimate_value (mintage : Int) (condition : String) : ℚ :=
  let base_values : List (String × ℚ) :=
    if mintage < 100000 then [("fdc", 15.0), ("bu", 30.0), ("be", 60.0)]
    else if mintage < 500000 then [("fdc", 8.0), ("bu", 15.0), ("be", 30.0)]
    else if mintage < 1000000 then [("fdc", 5.0), ("bu", 10.0), ("be", 20.0)]
    else if mintage < 5000000 then [("fdc", 4.0), ("bu", 7.0), ("be", 14.0)]
    else [("fdc", 3.0), ("bu", 5.0), ("be", 10.0)]
  dictGetD base_values condition 4.0

/-- The stock-photo fallback URL (line 200). -/
def unsplashDefault : String :=
  "https://images.unsplash.com/photo-1585483391381-b96dda4fae8f?q=85&w=600&auto=format&fit=crop"

/-- Function `extract_coin_from_box` (lines 153-204).  A raised Python exception is
`Except.error ()`: line 167 evaluates `self.base_url + image_url` for a
nonempty relative image source, and the `CoinScraper` instance has no
`base_url` attribute (only `base_url_ecb`), so that access raises
`AttributeError`. -/
def extract_coin_from_box (box : Node) (year : Int) : Except Unit (Option CoinRecord) :=
  let country :=
    match findFirstP (isTag "h3") box with
    | some country_elem => pyGetTextStrip country_elem
    | none => "Unknown"
  let imgStep : Except Unit String :=
    match findFirstP (isTag "img") box with
    | none => Except.ok ""
    | some img =>
      let image_url := attrGetD img "src" ""
      if image_url ≠ "" ∧ ¬(pyStartsWith image_url "http") then Except.error ()
      else Except.ok image_url
  match imgStep with
  | Except.error e => Except.error e
  | Except.ok image_url =>
    match findFirstP (fun n => isTag "div" n && hasClass "content-box" n) box with
    | none => Except.ok none
    | some content_box =>
      let description :=
        match findFirstP (isTag "p") content_box with
        | none => "Pièce commémorative"
        | some feature_elem =>
          let feature_text := pyGetTextStrip feature_elem
          if feature_text.toList.contains ':' then pyStrip (afterFirst ':' feature_text)
          else feature_text
      let text := pyGetText content_box
      let mintage : Int :=
        match searchIssuing text with
        | none => 1000000
        | some cap => (pyIntParse (pyStrip (pyRemoveChar ' ' (pyRemoveChar ',' cap)))).getD 1000000
      Except.ok (some {
        country := country
        year := year
        description := pyTake 200 description
        mintage := mintage
        image_url := if image_url ≠ "" then image_url else unsplashDefault
        value_fdc := estimate_value mintage "fdc"
        value_bu := estimate_value mintage "bu"
        value_be := estimate_value mintage "be" })

/-- Function `parse_year_page` (lines 135-151): every `div.box`, in document order;
a raised per-box exception is caught and the box skipped, and a `None`
result (no content-box) is skipped by the `if coin:` test. -/
def parse_year_page (soup : Node) (year : Int) : List CoinRecord :=
  ((descendants soup).filter (fun n => isTag "div" n && hasClass "box" n)).foldl
    (fun coins box =>
      match extract_coin_from_box box year with
      | Except.ok (some coin) => coins ++ [coin]
      | _ => coins) []

/-- Outcome of one `client.get` for a year page: either a raised exception
(timeout, connection error, ...) or a response with HTTP status and parsed
body. -/
inductive FetchOutcome where
  | exc
  | resp (status : Int) (doc : Node)

/-- Year range `range(2004, 2025)`: the years 2004..2024 in ascending order. -/
def ecbYears : List Int := (List.range 21).map (fun i => (2004 : Int) + i)

/-- Function `scrape_ecb_coins` (lines 103-133), with the network abstracted as a
fetch oracle: per year, an exception skips the year, a non-200 status
contributes nothing, a 200 response is parsed and its coins appended. -/
def scrape_ecb_coins (fetch : Int → FetchOutcome) : List CoinRecord :=
  ecbYears.foldl
    (fun coins year =>
      match fetch year with
      | FetchOutcome.exc => coins
      | FetchOutcome.resp status doc =>
        if status = 200 then coins ++ parse_year_page doc year else coins) []

/-- The merge key of lines 63 and 70-71: the lowercased, stripped country,
an underscore, and the year. -/
def mergeKey (coin : CoinRecord) : String :=
  pyStrip (pyLower coin.country) ++ "_" ++ toString coin.year

/-- The secondary index: a Python dict `str -> list` in key-insertion
order. -/
abbrev Index := List (String × List CoinRecord)

def idxLookup : Index → String → Option (List CoinRecord)
  | [], _ => none
  | (k', q) :: rest, k => if k' = k then some q else idxLookup rest k

/-- Replace the value stored at a key (used for `pop(0)`). -/
def idxSet : Index → String → List CoinRecord → Index
  | [], _, _ => []
  | (k', q) :: rest, k, v => if k' = k then (k', v) :: rest else (k', q) :: idxSet rest k v

/-- Index append of lines 63-66: extend the
existing queue, or insert a fresh key at the end (dict insertion order). -/
def idxAppend : Index → String → CoinRecord → Index
  | [], k, c => [(k, [c])]
  | (k', q) :: rest, k, c =>
    if k' = k then (k', q ++ [c]) :: rest else (k', q) :: idxAppend rest k c

/-- Lines 61-66: index the 2euros records by merge key, queueing
duplicates in input order. -/
def buildIndex (coins_2euros : List CoinRecord) : Index :=
  coins_2euros.foldl (fun idx coin => idxAppend idx (mergeKey coin) coin) []

/-- The merged composite dict of lines 80-89. -/
def compositeOf (ecb_coin euros_coin : CoinRecord) : CoinRecord :=
  { country := ecb_coin.country
    year := ecb_coin.year
    description := ecb_coin.description
    mintage := ecb_coin.mintage
    image_url :=
      if euros_coin.image_url ≠ "" ∧ containsSub euros_coin.image_url "unsplash" = false
      then euros_coin.image_url else ecb_coin.image_url
    value_fdc := euros_coin.value_fdc
    value_bu := euros_coin.value_bu
    value_be := euros_coin.value_be }

/-- The per-primary loop of lines 69-95: when the index holds a pending
queue for the primary's key, pop its head and emit the composite;
otherwise pass the primary through unchanged. -/
def mergeLoop : List CoinRecord → Index → List CoinRecord × Index
  | [], idx => ([], idx)
  | ecb_coin :: rest, idx =>
    match idxLookup idx (mergeKey ecb_coin) with
    | some (euros_coin :: pending) =>
      let r := mergeLoop rest (idxSet idx (mergeKey ecb_coin) pending)
      (compositeOf ecb_coin euros_coin :: r.1, r.2)
    | _ =>
      let r := mergeLoop rest idx
      (ecb_coin :: r.1, r.2)

/-- Function `merge_coin_data` (lines 56-101): primary-derived records first, then
the never-matched secondary queues in key-insertion order (lines 98-99). -/
def merge_coin_data (ecb_coins coins_2euros : List CoinRecord) : List CoinRecord :=
  let r := mergeLoop ecb_coins (buildIndex coins_2euros)
  r.1 ++ r.2.flatMap Prod.snd

/-- Function `get_initial_coin_data` (lines 226-430).  The file contains two
`def get_initial_coin_data` statements; Python binds the name to the later
one (lines 226-430), so the earlier body (lines 222-224, which would raise
`NameError`) is dead code. -/
def get_initial_coin_data : List CoinRecord :=
  [{ country := "France", year := 2024,
     description := "Jeux Olympiques et Paralympiques Paris 2024",
     mintage := 5000000,
     image_url := "https://images.unsplash.com/photo-1585483391381-b96dda4fae8f?q=85&w=600&auto=format&fit=crop",
     value_fdc := 5.0, value_bu := 8.0, value_be := 15.0 },
   { country := "France", year := 2023,
     description := "200 ans de la naissance de Louis Pasteur",
     mintage := 3000000,
     image_url := "https://images.unsplash.com/photo-1630856826965-f274fce8e532?q=85&w=600&auto=format&fit=crop",
     value_fdc := 4.5, value_bu := 7.5, value_be := 14.0 },
   { country := "France", year := 2022,
     description := "Simone Veil",
     mintage := 4000000,
     image_url := "https://images.unsplash.com/photo-1585483391381-b96dda4fae8f?q=85&w=600&auto=format&fit=crop",
     value_fdc := 4.0, value_bu := 7.0, value_be := 13.0 },
   { country := "Allemagne", year := 2024,
     description := "Thuringe",
     mintage := 30000000,
     image_url := "https://images.unsplash.com/photo-1634108941345-3a6a66685563?q=85&w=600&auto=format&fit=crop",
     value_fdc := 3.5, value_bu := 6.0, value_be := 12.0 },
   { country := "Allemagne", year := 2023,
     description := "Mecklembourg-Poméranie-Occidentale",
     mintage := 30000000,
     image_url := "https://images.unsplash.com/photo-1634108941345-3a6a66685563?q=85&w=600&auto=format&fit=crop",
     value_fdc := 3.5, value_bu := 6.0, value_be := 12.0 },
   { country := "Italie", year := 2024,
     description := "150e anniversaire de la naissance de Guglielmo Marconi",
     mintage := 3000000,
     image_url := "https://images.unsplash.com/photo-1630856826965-f274fce8e532?q=85&w=600&auto=format&fit=crop",
     value_fdc := 4.5, value_bu := 8.0, value_be := 15.0 },
   { country := "Italie", year := 2023,
     description := "150 ans de la mort d'Alessandro Manzoni",
     mintage := 3000000,
     image_url := "https://images.unsplash.com/photo-1585483391381-b96dda4fae8f?q=85&w=600&auto=format&fit=crop",
     value_fdc := 4.0, value_bu := 7.5, value_be := 14.0 },
   { country := "Espagne", year := 2024,
     description := "Présidence du Conseil de l'UE",
     mintage := 3000000,
     image_url := "https://images.unsplash.com/photo-1634108941345-3a6a66685563?q=85&w=600&auto=format&fit=crop",
     value_fdc := 4.0, value_bu := 7.0, value_be := 13.0 },
   { country := "Espagne", year := 2023,
     description := "Avila",
     mintage := 1000000,
     image_url := "https://images.unsplash.com/photo-1630856826965-f274fce8e532?q=85&w=600&auto=format&fit=crop",
     value_fdc := 5.0, value_bu := 9.0, value_be := 16.0 },
   { country := "Belgique", year := 2024,
     description := "Présidence belge du Conseil de l'UE",
     mintage := 200000,
     image_url := "https://images.unsplash.com/photo-1585483391381-b96dda4fae8f?q=85&w=600&auto=format&fit=crop",
     value_fdc := 6.0, value_bu := 12.0, value_be := 22.0 },
   { country := "Luxembourg", year := 2024,
     description := "200 ans de la Constitution",
     mintage := 500000,
     image_url := "https://images.unsplash.com/photo-1634108941345-3a6a66685563?q=85&w=600&auto=format&fit=crop",
     value_fdc := 5.5, value_bu := 10.0, value_be := 18.0 },
   { country := "Portugal", year := 2024,
     description := "50 ans de la Révolution des Œillets",
     mintage := 1000000,
     image_url := "https://images.unsplash.com/photo-1630856826965-f274fce8e532?q=85&w=600&auto=format&fit=crop",
     value_fdc := 5.0, value_bu := 8.5, value_be := 16.0 },
   { country := "Grèce", year := 2024,
     description := "150 ans de la naissance de Constantin Caratheodory",
     mintage := 750000,
     image_url := "https://images.unsplash.com/photo-1585483391381-b96dda4fae8f?q=85&w=600&auto=format&fit=crop",
     value_fdc := 5.0, value_bu := 9.0, value_be := 17.0 },
   { country := "Pays-Bas", year := 2024,
     description := "Effigie du Roi Willem-Alexander",
     mintage := 3000000,
     image_url := "https://images.unsplash.com/photo-1634108941345-3a6a66685563?q=85&w=600&auto=format&fit=crop",
     value_fdc := 4.0, value_bu := 7.0, value_be := 13.0 },
   { country := "Finlande", year := 2024,
     description := "Élections et démocratie",
     mintage := 400000,
     image_url := "https://images.unsplash.com/photo-1630856826965-f274fce8e532?q=85&w=600&auto=format&fit=crop",
     value_fdc := 5.5, value_bu := 10.0, value_be := 18.0 },
   { country := "Monaco", year := 2024,
     description := "Prince Albert II",
     mintage := 15000,
     image_url := "https://images.unsplash.com/photo-1585483391381-b96dda4fae8f?q=85&w=600&auto=format&fit=crop",
     value_fdc := 50.0, value_bu := 100.0, value_be := 200.0 },
   { country := "Vatican", year := 2024,
     description := "Pape François",
     mintage := 80000,
     image_url := "https://images.unsplash.com/photo-1634108941345-3a6a66685563?q=85&w=600&auto=format&fit=crop",
     value_fdc := 20.0, value_bu := 40.0, value_be := 80.0 },
   { country := "San Marin", year := 2024,
     description := "500 ans de la mort du Pérugin",
     mintage := 60000,
     image_url := "https://images.unsplash.com/photo-1630856826965-f274fce8e532?q=85&w=600&auto=format&fit=crop",
     value_fdc := 25.0, value_bu := 50.0, value_be := 100.0 },
   { country := "Malte", year := 2024,
     description := "Jeux de l'Île",
     mintage := 100000,
     image_url := "https://images.unsplash.com/photo-1585483391381-b96dda4fae8f?q=85&w=600&auto=format&fit=crop",
     value_fdc := 15.0, value_bu := 30.0, value_be := 60.0 },
   { country := "Autriche", year := 2024,
     description := "100 ans de la Radio autrichienne",
     mintage := 1000000,
     image_url := "https://images.unsplash.com/photo-1634108941345-3a6a66685563?q=85&w=600&auto=format&fit=crop",
     value_fdc := 5.0, value_bu := 8.5, value_be := 16.0 }]

/-- Function `scrape_coins` (lines 21-54), with the two scraping phases abstracted
as outcomes: `Except.error ()` is an exception escaping that phase.  The
outer `try` maps any escaped exception to the fallback data; the inner
`try` around the 2euros phase only logs.  An empty 2euros list skips the
merge (`if coins_2euros:`), falling through to the ECB records. -/
def scrape_coins (ecbOutcome eurosOutcome : Except Unit (List CoinRecord)) :
    List CoinRecord :=
  match ecbOutcome with
  | Except.error _ => get_initial_coin_data
  | Except.ok ecb_coins =>
    if ecb_coins.isEmpty then get_initial_coin_data
    else
      match eurosOutcome with
      | Except.error _ => ecb_coins
      | Except.ok coins_2euros =>
        if coins_2euros.isEmpty then ecb_coins
        else merge_coin_data ecb_coins coins_2euros

end CoinScraper

/-! ## Characterisation helpers (used only to state and prove theorems) -/

/-- Insert a key at the end unless already present (dict key insertion). -/
def insKey (acc : List String) (k : String) : List String :=
  if k ∈ acc then acc else acc ++ [k]

/-- The distinct keys of a list in first-occurrence order — the key order
of a Python dict filled by iteration. -/
def firstOccs (l : List String) : List String := l.foldl insKey []

/-- Declarative description of the secondary index: for each key in
first-occurrence order, the queue of records carrying it. -/
def groupByKey (m : List CoinRecord) : CoinScraper.Index :=
  (firstOccs (m.map CoinScraper.mergeKey)).map
    (fun k => (k, m.filter (fun c => CoinScraper.mergeKey c == k)))

/-! ## Concrete fixtures for witnesses and counterexamples -/

/-- The spec's end-to-end scenario box: heading `France`, image with
relative source `/img/x.png`, content text `Issuing volume: 5,000,000`. -/
def scenarioBox : Node :=
  .elem "div" ["box"] []
    [.elem "h3" [] [] [.text "France"],
     .elem "img" [] [("src", "/img/x.png")] [],
     .elem "div" ["content-box"] [] [.text "Issuing volume: 5,000,000"]]

/-- A page whose single coin container is `scenarioBox`. -/
def scenarioPage : Node := .elem "html" [] [] [scenarioBox]

/-- A box with heading and content-box but no image element. -/
def noImgBox : Node :=
  .elem "div" ["box"] []
    [.elem "h3" [] [] [.text "France"],
     .elem "div" ["content-box"] [] [.text "X"]]

/-- The record the primary extractor produces from `noImgBox`. -/
def noImgRecord : CoinRecord :=
  { country := "France", year := 2024, description := "Pièce commémorative",
    mintage := 1000000, image_url := CoinScraper.unsplashDefault,
    value_fdc := 4.0, value_bu := 7.0, value_be := 14.0 }

/-- An article node with no image element. -/
def noImgArticle : Node :=
  .elem "article" ["coin-item"] [] [.elem "h2" [] [] [.text "Coin 2022"]]

/-- A box whose issuing-volume text matches the regex but whose captured
group (a lone space) fails integer parsing. -/
def badVolumeBox : Node :=
  .elem "div" ["box"] []
    [.elem "div" ["content-box"] [] [.text "Issuing volume: abc"]]

/-- The content-box child of `badVolumeBox`. -/
def badVolumeContentBox : Node :=
  .elem "div" ["content-box"] [] [.text "Issuing volume: abc"]

/-- The record extracted from `badVolumeBox` (mintage falls back). -/
def badVolumeRecord : CoinRecord :=
  { country := "Unknown", year := 2020, description := "Pièce commémorative",
    mintage := 1000000, image_url := CoinScraper.unsplashDefault,
    value_fdc := 4.0, value_bu := 7.0, value_be := 14.0 }

/-- A box whose content text contains no issuing-volume label at all. -/
def noVolumeBox : Node :=
  .elem "div" ["box"] []
    [.elem "img" [] [("src", "http://x/im.png")] [],
     .elem "div" ["content-box"] [] [.text "Nothing here"]]

/-- The content-box child of `noVolumeBox`. -/
def noVolumeContentBox : Node :=
  .elem "div" ["content-box"] [] [.text "Nothing here"]

/-- The record extracted from `noVolumeBox` (mintage falls back). -/
def noVolumeRecord : CoinRecord :=
  { country := "Unknown", year := 2021, description := "Pièce commémorative",
    mintage := 1000000, image_url := "http://x/im.png",
    value_fdc := 4.0, value_bu := 7.0, value_be := 14.0 }

/-- A primary (ECB) record for merge witnesses. -/
def mergePrimary : CoinRecord :=
  { country := "France", year := 2024, description := "desc P", mintage := 5000000,
    image_url := "http://p/img.png", value_fdc := 5.0, value_bu := 8.0, value_be := 15.0 }

/-- A secondary (2euros) record matching `mergePrimary` up to case and
surrounding whitespace in the country. -/
def mergeSecondary : CoinRecord :=
  { country := " france ", year := 2024, description := "desc S", mintage := 1000000,
    image_url := "http://s/img.png", value_fdc := 4.0, value_bu := 7.0, value_be := 14.0 }

/-- A well-formed secondary-source article. -/
def sampleArticle : Node :=
  .elem "article" ["coin"] []
    [.elem "img" [] [("src", "http://a/i.png")] [],
     .elem "h2" [] [] [.text "Coin of 2019"],
     .text " blah"]

/-- The record extracted from `sampleArticle` for country `san-marino`. -/
def sampleArticleRecord : CoinRecord :=
  { country := "San Marino", year := 2019, description := "Coin of 2019",
    mintage := 1000000, image_url := "http://a/i.png",
    value_fdc := 4.0, value_bu := 7.0, value_be := 14.0 }

/-- A well-formed secondary-source image container. -/
def sampleContainer : Node :=
  .elem "div" ["coin-image"] []
    [.elem "img" [] [("src", "/c.png")] [],
     .elem "p" [] [] [.text "Malta 2015"]]

/-- The record extracted from `sampleContainer` for country `malta`. -/
def sampleContainerRecord : CoinRecord :=
  { country := "Malta", year := 2015, description := "Malta 2015",
    mintage := 1000000, image_url := "https://www.2euros.org/c.png",
    value_fdc := 4.0, value_bu := 7.0, value_be := 14.0 }

/-! ## Value-estimator lemmas -/

lemma estimate_value_fdc (m : Int) :
    CoinScraper.estimate_value m "fdc" =
      if m < 100000 then 15.0 else if m < 500000 then 8.0
      else if m < 1000000 then 5.0 else if m < 5000000 then 4.0 else (3.0 : ℚ) := by
  simp only [CoinScraper.estimate_value, dictGetD]
  split_ifs <;> rfl

lemma estimate_value_bu (m : Int) :
    CoinScraper.estimate_value m "bu" =
      if m < 100000 then 30.0 else if m < 500000 then 15.0
      else if m < 1000000 then 10.0 else if m < 5000000 then 7.0 else (5.0 : ℚ) := by
  simp only [CoinScraper.estimate_value, dictGetD]
  split_ifs <;> rfl

lemma estimate_value_be (m : Int) :
    CoinScraper.estimate_value m "be" =
      if m < 100000 then 60.0 else if m < 500000 then 30.0
      else if m < 1000000 then 20.0 else if m < 5000000 then 14.0 else (10.0 : ℚ) := by
  simp only [CoinScraper.estimate_value, dictGetD]
  split_ifs <;> rfl

lemma estimate_value_other (m : Int) (c : String)
    (h1 : c ≠ "fdc") (h2 : c ≠ "bu") (h3 : c ≠ "be") :
    CoinScraper.estimate_value m c = 4.0 := by
  have g1 : ("fdc" == c) = false := beq_eq_false_iff_ne.2 (Ne.symm h1)
  have g2 : ("bu" == c) = false := beq_eq_false_iff_ne.2 (Ne.symm h2)
  have g3 : ("be" == c) = false := beq_eq_false_iff_ne.2 (Ne.symm h3)
  simp only [CoinScraper.estimate_value, dictGetD]
  split_ifs <;> simp [List.find?, g1, g2, g3]

/-- C5.  The five-band table of `estimate_value`, monotonicity in the
mintage for each of the three grades, strict decrease across every band
boundary, and the fixed default for unknown condition tags. -/
theorem claim_C5 :
    (∀ m : Int, 0 ≤ m →
      (m < 100000 →
        CoinScraper.estimate_value m "fdc" = 15.0 ∧
        CoinScraper.estimate_value m "bu" = 30.0 ∧
        CoinScraper.estimate_value m "be" = 60.0) ∧
      (100000 ≤ m → m < 500000 →
        CoinScraper.estimate_value m "fdc" = 8.0 ∧
        CoinScraper.estimate_value m "bu" = 15.0 ∧
        CoinScraper.estimate_value m "be" = 30.0) ∧
      (500000 ≤ m → m < 1000000 →
        CoinScraper.estimate_value m "fdc" = 5.0 ∧
        CoinScraper.estimate_value m "bu" = 10.0 ∧
        CoinScraper.estimate_value m "be" = 20.0) ∧
      (1000000 ≤ m → m < 5000000 →
        CoinScraper.estimate_value m "fdc" = 4.0 ∧
        CoinScraper.estimate_value m "bu" = 7.0 ∧
        CoinScraper.estimate_value m "be" = 14.0) ∧
      (5000000 ≤ m →
        CoinScraper.estimate_value m "fdc" = 3.0 ∧
        CoinScraper.estimate_value m "bu" = 5.0 ∧
        CoinScraper.estimate_value m "be" = 10.0)) ∧
    (∀ m₁ m₂ : Int, 0 ≤ m₁ → m₁ ≤ m₂ → ∀ c, c = "fdc" ∨ c = "bu" ∨ c = "be" →
      CoinScraper.estimate_value m₂ c ≤ CoinScraper.estimate_value m₁ c) ∧
    (∀ c, c = "fdc" ∨ c = "bu" ∨ c = "be" →
      CoinScraper.estimate_value 100000 c < CoinScraper.estimate_value 0 c ∧
      CoinScraper.estimate_value 500000 c < CoinScraper.estimate_value 100000 c ∧
      CoinScraper.estimate_value 1000000 c < CoinScraper.estimate_value 500000 c ∧
      CoinScraper.estimate_value 5000000 c < CoinScraper.estimate_value 1000000 c) ∧
    (∀ (m : Int) (c : String), c ≠ "fdc" → c ≠ "bu" → c ≠ "be" →
      CoinScraper.estimate_value m c = 4.0) := by
  refine ⟨?_, ?_, ?_, ?_⟩
  · intro m _
    refine ⟨fun h1 => ⟨?_, ?_, ?_⟩, fun h1 h2 => ⟨?_, ?_, ?_⟩, fun h1 h2 => ⟨?_, ?_, ?_⟩,
      fun h1 h2 => ⟨?_, ?_, ?_⟩, fun h1 => ⟨?_, ?_, ?_⟩⟩ <;>
      simp only [estimate_value_fdc, estimate_value_bu, estimate_value_be] <;>
      split_ifs <;> first | rfl | omega
  · intro m₁ m₂ h0 hle c hc
    rcases hc with rfl | rfl | rfl <;>
      simp only [estimate_value_fdc, estimate_value_bu, estimate_value_be] <;>
      split_ifs <;> try norm_num
    all_goals omega
  · intro c hc
    rcases hc with rfl | rfl | rfl <;>
      refine ⟨?_, ?_, ?_, ?_⟩ <;>
      simp only [estimate_value_fdc, estimate_value_bu, estimate_value_be] <;>
      norm_num
  · exact estimate_value_other

/-- Witness for C5 at concrete inputs. -/
theorem claim_C5_witness :
    CoinScraper.estimate_value 5000000 "fdc" = 3.0 ∧
    CoinScraper.estimate_value 7000000 "bu" ≤ CoinScraper.estimate_value 42 "bu" ∧
    CoinScraper.estimate_value 100000 "be" < CoinScraper.estimate_value 0 "be" ∧
    CoinScraper.estimate_value 123 "mint" = 4.0 :=
  ⟨(claim_C5.1 5000000 (by norm_num)).2.2.2.2 (by norm_num) |>.1,
   claim_C5.2.1 42 7000000 (by norm_num) (by norm_num) "bu" (Or.inr (Or.inl rfl)),
   (claim_C5.2.2.1 "be" (Or.inr (Or.inr rfl))).1,
   claim_C5.2.2.2 123 "mint" (by decide) (by decide) (by decide)⟩

/-- C10.  The two value estimators are extensionally equal: the band table
and default in `scraper.py` lines 206-220 and `scraper_2euros.py` lines
212-225 coincide. -/
theorem claim_C10 :
    ∀ (mintage : Int) (condition : String),
      CoinScraper.estimate_value mintage condition =
        TwoEurosScraper.estimate_value mintage condition :=
  fun _ _ => rfl

/-! ## C1: the end-to-end extraction scenario -/

/-- C1 (code bug).  On the spec's end-to-end scenario page — one `div.box`
with heading `France`, image source `/img/x.png` and content text
`Issuing volume: 5,000,000` — the extractor does not return the promised
record: the relative image URL makes line 167 read the nonexistent
attribute `self.base_url` (only `base_url_ecb` is defined), which raises
`AttributeError`; `parse_year_page` catches it, skips the box, and yields
no record at all. -/
theorem claim_C1 :
    CoinScraper.extract_coin_from_box scenarioBox 2024 = Except.error () ∧
    CoinScraper.parse_year_page scenarioPage 2024 = [] :=
  ⟨rfl, rfl⟩

/-! ## C6: image-less containers -/

/-- Counterexample to C6 as stated: a box with no image element is not
skipped by the primary extractor — it yields a full record with the stock
fallback image URL. -/
theorem claim_C6_counterexample :
    findFirstP (isTag "img") noImgBox = none ∧
    CoinScraper.extract_coin_from_box noImgBox 2024 = Except.ok (some noImgRecord) :=
  ⟨rfl, rfl⟩

/-- C6 (amended).  Image-less containers are skipped by the two
secondary-source extractors; the primary box extractor instead proceeds
without error, substitutes the stock fallback image URL, and skips a box
only when it has no `div.content-box`. -/
theorem claim_C6 :
    (∀ (article : Node) (country : String),
      findFirstP (isTag "img") article = none →
      TwoEurosScraper.extract_coin_from_article article country = none) ∧
    (∀ (container : Node) (parent nextSibling : Option Node) (country : String),
      findFirstP (isTag "img") container = none →
      TwoEurosScraper.extract_coin_from_container container parent nextSibling country = none) ∧
    (∀ (box : Node) (year : Int), findFirstP (isTag "img") box = none →
      (findFirstP (fun n => isTag "div" n && hasClass "content-box" n) box = none →
        CoinScraper.extract_coin_from_box box year = Except.ok none) ∧
      (∀ r, CoinScraper.extract_coin_from_box box year = Except.ok (some r) →
        r.image_url = CoinScraper.unsplashDefault) ∧
      (∀ e, CoinScraper.extract_coin_from_box box year ≠ Except.error e)) := by
  refine ⟨?_, ?_, ?_⟩
  · intro article country h
    simp [TwoEurosScraper.extract_coin_from_article, h]
  · intro container parent nextSibling country h
    simp [TwoEurosScraper.extract_coin_from_container, h]
  · intro box year h
    refine ⟨?_, ?_, ?_⟩
    · intro hcb
      simp [CoinScraper.extract_coin_from_box, h, hcb]
    · intro r hr
      cases hcb : findFirstP (fun n => isTag "div" n && hasClass "content-box" n) box with
      | none => simp [CoinScraper.extract_coin_from_box, h, hcb] at hr
      | some cb =>
        rw [CoinScraper.extract_coin_from_box] at hr
        simp only [h, hcb, Except.ok.injEq, Option.some.injEq] at hr
        subst hr
        simp
    · intro e he
      cases hcb : findFirstP (fun n => isTag "div" n && hasClass "content-box" n) box with
      | none => simp [CoinScraper.extract_coin_from_box, h, hcb] at he
      | some cb => simp [CoinScraper.extract_coin_from_box, h, hcb] at he

/-- Witness for the amended C6 at concrete inputs. -/
theorem claim_C6_witness :
    TwoEurosScraper.extract_coin_from_article noImgArticle "france" = none ∧
    TwoEurosScraper.extract_coin_from_container noImgArticle none none "spain" = none ∧
    ∀ r, CoinScraper.extract_coin_from_box noImgBox 2024 = Except.ok (some r) →
      r.image_url = CoinScraper.unsplashDefault :=
  ⟨claim_C6.1 noImgArticle "france" rfl,
   claim_C6.2.1 noImgArticle none none "spain" rfl,
   (claim_C6.2.2 noImgBox 2024 rfl).2.1⟩

/-! ## C7: the mintage fallback -/

/-- C7.  Whenever the content-box text has no issuing-volume match, or the
matched number fails integer parsing after commas and spaces are removed,
any record the primary extractor returns carries mintage 1000000. -/
theorem claim_C7 :
    ∀ (box content_box : Node) (year : Int) (r : CoinRecord),
      findFirstP (fun n => isTag "div" n && hasClass "content-box" n) box =
        some content_box →
      (searchIssuing (pyGetText content_box) = none ∨
        ∃ cap, searchIssuing (pyGetText content_box) = some cap ∧
          pyIntParse (pyStrip (pyRemoveChar ' ' (pyRemoveChar ',' cap))) = none) →
      CoinScraper.extract_coin_from_box box year = Except.ok (some r) →
      r.mintage = 1000000 := by
  intro box content_box year r hcb hvol hr
  rw [CoinScraper.extract_coin_from_box] at hr
  rcases himg : findFirstP (isTag "img") box with _ | img
  · simp only [himg, hcb, Except.ok.injEq, Option.some.injEq] at hr
    subst hr
    rcases hvol with hnone | ⟨cap, hcap, hfail⟩
    · simp [hnone]
    · simp [hcap, hfail]
  · simp only [himg] at hr
    rcases hcond : decide (attrGetD img "src" "" ≠ "" ∧
        ¬(pyStartsWith (attrGetD img "src" "") "http") = true) with _ | _
    · rw [show (if attrGetD img "src" "" ≠ "" ∧ ¬(pyStartsWith (attrGetD img "src" "") "http") = true
          then (Except.error () : Except Unit String) else Except.ok (attrGetD img "src" ""))
          = Except.ok (attrGetD img "src" "") from by
          simp only [ite_eq_right_iff]
          intro hc
          exact absurd hc (of_decide_eq_false hcond)] at hr
      simp only [hcb, Except.ok.injEq, Option.some.injEq] at hr
      subst hr
      rcases hvol with hnone | ⟨cap, hcap, hfail⟩
      · simp [hnone]
      · simp [hcap, hfail]
    · exfalso
      rw [show (if attrGetD img "src" "" ≠ "" ∧ ¬(pyStartsWith (attrGetD img "src" "") "http") = true
          then (Except.error () : Except Unit String) else Except.ok (attrGetD img "src" ""))
          = Except.error () from by
          simp [of_decide_eq_true hcond]] at hr
      simp at hr

/-- Witness for C7 on both fallback paths: a matched but unparseable
volume (`Issuing volume: abc` captures a lone space) and a text with no
match at all. -/
theorem claim_C7_witness :
    CoinScraper.extract_coin_from_box badVolumeBox 2020 =
        Except.ok (some badVolumeRecord) ∧
    badVolumeRecord.mintage = 1000000 ∧
    CoinScraper.extract_coin_from_box noVolumeBox 2021 =
        Except.ok (some noVolumeRecord) ∧
    noVolumeRecord.mintage = 1000000 :=
  ⟨rfl,
   claim_C7 badVolumeBox badVolumeContentBox 2020 badVolumeRecord rfl
     (Or.inr ⟨" ", by decide, by decide⟩) rfl,
   rfl,
   claim_C7 noVolumeBox noVolumeContentBox 2021 noVolumeRecord rfl
     (Or.inl (by decide)) rfl⟩

/-! ## C8: the per-year fetch loop -/

/-- C8.  The ECB fetch loop is exactly the ascending concatenation of the
per-year extraction results, where a year whose fetch raises contributes
nothing and a year whose response status is not 200 (e.g. 500) contributes
nothing; in particular no failure stops later years from being
processed. -/
theorem claim_C8 :
    ∀ fetch : Int → CoinScraper.FetchOutcome,
      CoinScraper.scrape_ecb_coins fetch =
        CoinScraper.ecbYears.flatMap (fun year =>
          match fetch year with
          | CoinScraper.FetchOutcome.exc => []
          | CoinScraper.FetchOutcome.resp status doc =>
            if status = 200 then CoinScraper.parse_year_page doc year else []) := by
  intro fetch
  have aux : ∀ (ys : List Int) (init : List CoinRecord),
      ys.foldl (fun coins year =>
        match fetch year with
        | CoinScraper.FetchOutcome.exc => coins
        | CoinScraper.FetchOutcome.resp status doc =>
          if status = 200 then coins ++ CoinScraper.parse_year_page doc year
          else coins) init =
      init ++ ys.flatMap (fun year =>
        match fetch year with
        | CoinScraper.FetchOutcome.exc => []
        | CoinScraper.FetchOutcome.resp status doc =>
          if status = 200 then CoinScraper.parse_year_page doc year else []) := by
    intro ys
    induction ys with
    | nil => intro init; simp
    | cons y ys ih =>
      intro init
      rw [List.foldl_cons, List.flatMap_cons, ih]
      cases fetch y with
      | exc => simp
      | resp status doc =>
        by_cases hs : status = 200 <;> simp [hs, List.append_assoc]
  rw [CoinScraper.scrape_ecb_coins, aux, List.nil_append]

/-! ## Merge-reconciler lemmas -/

lemma mem_insKey (acc : List String) (x k : String) :
    k ∈ insKey acc x ↔ k ∈ acc ∨ k = x := by
  unfold insKey
  split_ifs with h
  · constructor
    · exact Or.inl
    · rintro (hk | rfl) <;> assumption
  · simp [List.mem_append]

lemma mem_foldl_insKey (l : List String) :
    ∀ (acc : List String) (k : String), k ∈ l.foldl insKey acc ↔ k ∈ acc ∨ k ∈ l := by
  induction l with
  | nil => intro acc k; simp
  | cons x l ih =>
    intro acc k
    rw [List.foldl_cons, ih, mem_insKey]
    simp [or_assoc]

lemma nodup_insKey (acc : List String) (x : String) (h : acc.Nodup) :
    (insKey acc x).Nodup := by
  unfold insKey
  split_ifs with hx
  · exact h
  · rw [← List.concat_eq_append]
    exact h.concat hx

lemma nodup_foldl_insKey (l : List String) :
    ∀ acc : List String, acc.Nodup → (l.foldl insKey acc).Nodup := by
  induction l with
  | nil => intro acc h; exact h
  | cons x l ih => intro acc h; exact ih _ (nodup_insKey acc x h)

lemma firstOccs_nodup (l : List String) : (firstOccs l).Nodup :=
  nodup_foldl_insKey l [] List.nodup_nil

lemma mem_firstOccs (l : List String) (k : String) : k ∈ firstOccs l ↔ k ∈ l := by
  simpa using mem_foldl_insKey l [] k

lemma firstOccs_snoc (l : List String) (x : String) :
    firstOccs (l ++ [x]) = insKey (firstOccs l) x := by
  unfold firstOccs
  rw [List.foldl_append]
  rfl

lemma idxLookup_map (K : List String) (f : String → List CoinRecord) (k₀ : String) :
    CoinScraper.idxLookup (K.map fun k => (k, f k)) k₀ =
      if k₀ ∈ K then some (f k₀) else none := by
  induction K with
  | nil => simp [CoinScraper.idxLookup]
  | cons k K ih =>
    rw [List.map_cons]
    by_cases hk : k = k₀
    · subst hk
      simp [CoinScraper.idxLookup]
    · rw [show CoinScraper.idxLookup ((k, f k) :: K.map fun k => (k, f k)) k₀
          = CoinScraper.idxLookup (K.map fun k => (k, f k)) k₀ from by
            simp [CoinScraper.idxLookup, hk], ih]
      simp [List.mem_cons, hk, Ne.symm hk]

lemma idxAppend_map_mem (K : List String) (f : String → List CoinRecord)
    (k₀ : String) (c : CoinRecord) (hnd : K.Nodup) (hmem : k₀ ∈ K) :
    CoinScraper.idxAppend (K.map fun k => (k, f k)) k₀ c =
      K.map (fun k => (k, if k = k₀ then f k ++ [c] else f k)) := by
  induction K with
  | nil => cases hmem
  | cons k K ih =>
    rw [List.nodup_cons] at hnd
    rw [List.map_cons, List.map_cons]
    by_cases hk : k = k₀
    · subst hk
      rw [show CoinScraper.idxAppend ((k, f k) :: K.map fun k' => (k', f k')) k c
            = (k, f k ++ [c]) :: K.map (fun k' => (k', f k')) from by
          simp [CoinScraper.idxAppend]]
      simp only [if_pos rfl]
      congr 1
      refine (List.map_congr_left ?_).symm
      intro a ha
      have : a ≠ k := fun h => hnd.1 (h ▸ ha)
      simp [this]
    · rcases List.mem_cons.mp hmem with rfl | hmem'
      · exact absurd rfl hk
      · rw [show CoinScraper.idxAppend ((k, f k) :: K.map fun k' => (k', f k')) k₀ c
              = (k, f k) :: CoinScraper.idxAppend (K.map fun k' => (k', f k')) k₀ c from by
            simp [CoinScraper.idxAppend, hk]]
        rw [ih hnd.2 hmem']
        simp [hk]

lemma idxAppend_map_notmem (K : List String) (f : String → List CoinRecord)
    (k₀ : String) (c : CoinRecord) (hmem : k₀ ∉ K) :
    CoinScraper.idxAppend (K.map fun k => (k, f k)) k₀ c =
      K.map (fun k => (k, f k)) ++ [(k₀, [c])] := by
  induction K with
  | nil => rfl
  | cons k K ih =>
    have hk : k ≠ k₀ := fun h => hmem (h ▸ List.mem_cons_self k K)
    rw [List.map_cons,
      show CoinScraper.idxAppend ((k, f k) :: K.map fun k' => (k', f k')) k₀ c
          = (k, f k) :: CoinScraper.idxAppend (K.map fun k' => (k', f k')) k₀ c from by
        simp [CoinScraper.idxAppend, hk],
      ih (fun h => hmem (List.mem_cons_of_mem k h))]
    simp

lemma idxSet_map (K : List String) (f : String → List CoinRecord)
    (k₀ : String) (v : List CoinRecord) (hnd : K.Nodup) :
    CoinScraper.idxSet (K.map fun k => (k, f k)) k₀ v =
      K.map (fun k => (k, if k = k₀ then v else f k)) := by
  induction K with
  | nil => rfl
  | cons k K ih =>
    rw [List.nodup_cons] at hnd
    rw [List.map_cons, List.map_cons]
    by_cases hk : k = k₀
    · subst hk
      rw [show CoinScraper.idxSet ((k, f k) :: K.map fun k' => (k', f k')) k v
            = (k, v) :: K.map (fun k' => (k', f k')) from by
          simp [CoinScraper.idxSet]]
      simp only [if_pos rfl]
      congr 1
      refine (List.map_congr_left ?_).symm
      intro a ha
      have : a ≠ k := fun h => hnd.1 (h ▸ ha)
      simp [this]
    · rw [show CoinScraper.idxSet ((k, f k) :: K.map fun k' => (k', f k')) k₀ v
            = (k, f k) :: CoinScraper.idxSet (K.map fun k' => (k', f k')) k₀ v from by
          simp [CoinScraper.idxSet, hk],
        ih hnd.2]
      simp [hk]

lemma groupByKey_snoc (m : List CoinRecord) (c : CoinRecord) :
    CoinScraper.idxAppend (groupByKey m) (CoinScraper.mergeKey c) c =
      groupByKey (m ++ [c]) := by
  unfold groupByKey
  rw [List.map_append, List.map_cons, List.map_nil, firstOccs_snoc]
  by_cases hmem : CoinScraper.mergeKey c ∈ firstOccs (m.map CoinScraper.mergeKey)
  · rw [idxAppend_map_mem _ _ _ _ (firstOccs_nodup _) hmem,
      show insKey (firstOccs (m.map CoinScraper.mergeKey)) (CoinScraper.mergeKey c)
          = firstOccs (m.map CoinScraper.mergeKey) from by simp [insKey, hmem]]
    refine List.map_congr_left ?_
    intro k hk
    rw [List.filter_append, List.filter_cons, List.filter_nil]
    by_cases hkc : k = CoinScraper.mergeKey c
    · subst hkc
      simp
    · have : (CoinScraper.mergeKey c == k) = false :=
        beq_eq_false_iff_ne.2 (Ne.symm hkc)
      simp [hkc, this]
  · rw [idxAppend_map_notmem _ _ _ _ hmem,
      show insKey (firstOccs (m.map CoinScraper.mergeKey)) (CoinScraper.mergeKey c)
          = firstOccs (m.map CoinScraper.mergeKey) ++ [CoinScraper.mergeKey c] from by
        simp [insKey, hmem]]
    rw [List.map_append, List.map_cons, List.map_nil]
    have hnil : m.filter (fun x => CoinScraper.mergeKey x == CoinScraper.mergeKey c) = [] := by
      rw [List.filter_eq_nil_iff]
      intro a ha hbeq
      exact hmem ((mem_firstOccs _ _).2 (List.mem_map.2 ⟨a, ha, (beq_iff_eq.1 hbeq)⟩))
    congr 1
    · refine List.map_congr_left ?_
      intro k hk
      have hkc : CoinScraper.mergeKey c ≠ k := fun h => hmem (h ▸ hk)
      rw [List.filter_append, List.filter_cons, List.filter_nil]
      simp [beq_eq_false_iff_ne.2 hkc]
    · rw [List.filter_append, List.filter_cons, List.filter_nil, hnil]
      simp

lemma buildIndex_eq_groupByKey (l : List CoinRecord) :
    CoinScraper.buildIndex l = groupByKey l := by
  have aux : ∀ (l m : List CoinRecord),
      l.foldl (fun idx coin => CoinScraper.idxAppend idx (CoinScraper.mergeKey coin) coin)
        (groupByKey m) = groupByKey (m ++ l) := by
    intro l
    induction l with
    | nil => intro m; simp
    | cons c l ih =>
      intro m
      rw [List.foldl_cons, groupByKey_snoc, ih]
      simp
  have h0 : (CoinScraper.buildIndex l : CoinScraper.Index) =
      l.foldl (fun idx coin => CoinScraper.idxAppend idx (CoinScraper.mergeKey coin) coin)
        (groupByKey []) := rfl
  rw [h0, aux]
  simp

lemma mergeLoop_fst_length :
    ∀ (ps : List CoinRecord) (idx : CoinScraper.Index),
      (CoinScraper.mergeLoop ps idx).1.length = ps.length := by
  intro ps
  induction ps with
  | nil => intro idx; simp [CoinScraper.mergeLoop]
  | cons p ps ih =>
    intro idx
    rcases h : CoinScraper.idxLookup idx (CoinScraper.mergeKey p) with _ | (_ | ⟨s, pending⟩)
    · simp [CoinScraper.mergeLoop, h, ih]
    · simp [CoinScraper.mergeLoop, h, ih]
    · simp [CoinScraper.mergeLoop, h, ih]

lemma mergeLoop_idx (ps : List CoinRecord) :
    ∀ (K : List String) (f : String → List CoinRecord), K.Nodup →
      (CoinScraper.mergeLoop ps (K.map fun k => (k, f k))).2 =
        K.map (fun k => (k, (f k).drop
          (ps.countP (fun p => CoinScraper.mergeKey p == k)))) := by
  induction ps with
  | nil =>
    intro K f _
    simp [CoinScraper.mergeLoop]
  | cons p ps ih =>
    intro K f hnd
    rcases hmem : decide (CoinScraper.mergeKey p ∈ K) with _ | _
    · have hmem' : CoinScraper.mergeKey p ∉ K := of_decide_eq_false hmem
      have hl : CoinScraper.idxLookup (K.map fun k => (k, f k)) (CoinScraper.mergeKey p)
          = none := by rw [idxLookup_map]; simp [hmem']
      rw [show CoinScraper.mergeLoop (p :: ps) (K.map fun k => (k, f k))
            = (p :: (CoinScraper.mergeLoop ps (K.map fun k => (k, f k))).1,
               (CoinScraper.mergeLoop ps (K.map fun k => (k, f k))).2) from by
          rw [CoinScraper.mergeLoop, hl]]
      rw [ih K f hnd]
      refine List.map_congr_left ?_
      intro k hk
      have : (CoinScraper.mergeKey p == k) = false :=
        beq_eq_false_iff_ne.2 (fun h => hmem' (h ▸ hk))
      simp [List.countP_cons, this]
    · have hmem' : CoinScraper.mergeKey p ∈ K := of_decide_eq_true hmem
      have hl : CoinScraper.idxLookup (K.map fun k => (k, f k)) (CoinScraper.mergeKey p)
          = some (f (CoinScraper.mergeKey p)) := by rw [idxLookup_map]; simp [hmem']
      rcases hq : f (CoinScraper.mergeKey p) with _ | ⟨s, pending⟩
      · rw [show CoinScraper.mergeLoop (p :: ps) (K.map fun k => (k, f k))
              = (p :: (CoinScraper.mergeLoop ps (K.map fun k => (k, f k))).1,
                 (CoinScraper.mergeLoop ps (K.map fun k => (k, f k))).2) from by
            rw [CoinScraper.mergeLoop, hl, hq]]
        rw [ih K f hnd]
        refine List.map_congr_left ?_
        intro k hk
        by_cases hkp : k = CoinScraper.mergeKey p
        · subst hkp
          simp [hq]
        · have : (CoinScraper.mergeKey p == k) = false :=
            beq_eq_false_iff_ne.2 (Ne.symm hkp)
          simp [List.countP_cons, this]
      · rw [show CoinScraper.mergeLoop (p :: ps) (K.map fun k => (k, f k))
              = (CoinScraper.compositeOf p s ::
                  (CoinScraper.mergeLoop ps
                    (CoinScraper.idxSet (K.map fun k => (k, f k))
                      (CoinScraper.mergeKey p) pending)).1,
                 (CoinScraper.mergeLoop ps
                    (CoinScraper.idxSet (K.map fun k => (k, f k))
                      (CoinScraper.mergeKey p) pending)).2) from by
            rw [CoinScraper.mergeLoop, hl, hq]]
        rw [idxSet_map _ _ _ _ hnd, ih K _ hnd]
        refine List.map_congr_left ?_
        intro k hk
        by_cases hkp : k = CoinScraper.mergeKey p
        · subst hkp
          have hc : (p :: ps).countP
                (fun q => CoinScraper.mergeKey q == CoinScraper.mergeKey p)
              = ps.countP (fun q => CoinScraper.mergeKey q == CoinScraper.mergeKey p)
                  + 1 := by
            simp [List.countP_cons]
          simp [hc, hq]
        · have : (CoinScraper.mergeKey p == k) = false :=
            beq_eq_false_iff_ne.2 (Ne.symm hkp)
          simp [List.countP_cons, this, hkp]

/-! ## C3 and C4: the merge reconciler -/

/-- C3.  When the pending queue for a primary's key starts with `s`, the
merge emits for that primary the composite that keeps the primary's
country, year, description and mintage, takes the secondary's three value
fields, and takes the secondary's image URL unless it is empty or contains
`unsplash`.  Stated both at the loop level (arbitrary pending state) and
top-level, where `s` is the first secondary whose lowercased, stripped
country and year equal the primary's. -/
theorem claim_C3 :
    (∀ (idx : CoinScraper.Index) (p s : CoinRecord)
        (pending ps : List CoinRecord),
      CoinScraper.idxLookup idx (CoinScraper.mergeKey p) = some (s :: pending) →
      (CoinScraper.mergeLoop (p :: ps) idx).1.head? = some
        { country := p.country, year := p.year, description := p.description,
          mintage := p.mintage,
          image_url :=
            if s.image_url ≠ "" ∧ containsSub s.image_url "unsplash" = false
            then s.image_url else p.image_url,
          value_fdc := s.value_fdc, value_bu := s.value_bu,
          value_be := s.value_be }) ∧
    (∀ (p s : CoinRecord) (pre post : List CoinRecord),
      pyStrip (pyLower s.country) = pyStrip (pyLower p.country) →
      s.year = p.year →
      (∀ t ∈ pre, CoinScraper.mergeKey t ≠ CoinScraper.mergeKey p) →
      (CoinScraper.merge_coin_data [p] (pre ++ s :: post)).head? = some
        { country := p.country, year := p.year, description := p.description,
          mintage := p.mintage,
          image_url :=
            if s.image_url ≠ "" ∧ containsSub s.image_url "unsplash" = false
            then s.image_url else p.image_url,
          value_fdc := s.value_fdc, value_bu := s.value_bu,
          value_be := s.value_be }) := by
  constructor
  · intro idx p s pending ps h
    simp [CoinScraper.mergeLoop, h, CoinScraper.compositeOf]
  · intro p s pre post hc hy hpre
    have hkey : CoinScraper.mergeKey s = CoinScraper.mergeKey p := by
      unfold CoinScraper.mergeKey
      rw [hc, hy]
    have hfil : (pre ++ s :: post).filter
        (fun x => CoinScraper.mergeKey x == CoinScraper.mergeKey p)
        = s :: post.filter (fun x => CoinScraper.mergeKey x == CoinScraper.mergeKey p) := by
      rw [List.filter_append, List.filter_cons,
        show (pre.filter fun x => CoinScraper.mergeKey x == CoinScraper.mergeKey p) = []
          from List.filter_eq_nil_iff.2
            (fun t ht hbeq => hpre t ht (beq_iff_eq.1 hbeq))]
      simp [hkey]
    have hmem : CoinScraper.mergeKey p ∈
        firstOccs ((pre ++ s :: post).map CoinScraper.mergeKey) := by
      rw [mem_firstOccs]
      exact List.mem_map.2 ⟨s, by simp, hkey⟩
    have hlook : CoinScraper.idxLookup (CoinScraper.buildIndex (pre ++ s :: post))
        (CoinScraper.mergeKey p)
        = some (s :: post.filter
            (fun x => CoinScraper.mergeKey x == CoinScraper.mergeKey p)) := by
      rw [buildIndex_eq_groupByKey]
      unfold groupByKey
      rw [idxLookup_map, if_pos hmem, hfil]
    rw [CoinScraper.merge_coin_data]
    simp [CoinScraper.mergeLoop, hlook, CoinScraper.compositeOf]

/-- Witness for C3 at concrete records. -/
theorem claim_C3_witness :
    (CoinScraper.merge_coin_data [mergePrimary] [mergeSecondary]).head? = some
      { country := "France", year := 2024, description := "desc P",
        mintage := 5000000, image_url := "http://s/img.png",
        value_fdc := 4.0, value_bu := 7.0, value_be := 14.0 } :=
  claim_C3.2 mergePrimary mergeSecondary [] [] (by decide) rfl
    (fun t ht => absurd ht (List.not_mem_nil t))

/-- C4.  The merge output is the primary-derived records (one per primary,
in order) followed by, for each merge key in first-occurrence order of the
secondary input, the secondary records of that key with the first
`countP` (number of primaries with that key) entries consumed — i.e.
every never-matched secondary appears exactly once, after all
primary-derived records, and primaries consume matching secondaries in
first-in-first-out order. -/
theorem claim_C4 :
    ∀ ecb_coins coins_2euros : List CoinRecord,
      ∃ primPart : List CoinRecord,
        CoinScraper.merge_coin_data ecb_coins coins_2euros =
          primPart ++
            (firstOccs (coins_2euros.map CoinScraper.mergeKey)).flatMap
              (fun k => (coins_2euros.filter
                  (fun s => CoinScraper.mergeKey s == k)).drop
                (ecb_coins.countP (fun p => CoinScraper.mergeKey p == k))) ∧
        primPart.length = ecb_coins.length := by
  intro ecb coins
  refine ⟨(CoinScraper.mergeLoop ecb (CoinScraper.buildIndex coins)).1, ?_,
    mergeLoop_fst_length ecb _⟩
  rw [CoinScraper.merge_coin_data]
  congr 1
  rw [buildIndex_eq_groupByKey]
  unfold groupByKey
  rw [mergeLoop_idx ecb _ _ (firstOccs_nodup _), List.flatMap_map]

/-- Function `merge_coin_data` never shrinks a nonempty primary list to nothing. -/
lemma merge_coin_data_ne_nil (ecb coins : List CoinRecord) (h : ecb ≠ []) :
    CoinScraper.merge_coin_data ecb coins ≠ [] := by
  intro hcontra
  rw [CoinScraper.merge_coin_data] at hcontra
  have h1 := (List.append_eq_nil.1 hcontra).1
  have h2 := congrArg List.length h1
  rw [mergeLoop_fst_length] at h2
  exact h (List.length_eq_zero.1 h2)

/-! ## C2: the pipeline entry point -/

/-- C2.  `scrape_coins` never surfaces an error and never returns an empty
list; when the primary phase yields no records or raises, the result is
exactly the static fallback list, which has 20 entries and starts with
France / 2024 / mintage 5000000. -/
theorem claim_C2 :
    (∀ eurosOutcome, CoinScraper.scrape_coins (Except.ok []) eurosOutcome =
      CoinScraper.get_initial_coin_data) ∧
    (∀ eurosOutcome, CoinScraper.scrape_coins (Except.error ()) eurosOutcome =
      CoinScraper.get_initial_coin_data) ∧
    CoinScraper.get_initial_coin_data.length = 20 ∧
    CoinScraper.get_initial_coin_data.head?.map (fun r => (r.country, r.year, r.mintage))
      = some ("France", 2024, 5000000) ∧
    (∀ ecbOutcome eurosOutcome,
      CoinScraper.scrape_coins ecbOutcome eurosOutcome ≠ []) := by
  refine ⟨fun _ => rfl, fun _ => rfl, rfl, rfl, ?_⟩
  intro ecbOutcome eurosOutcome
  rcases ecbOutcome with _ | ecb
  · simp [CoinScraper.scrape_coins, CoinScraper.get_initial_coin_data]
  · rw [CoinScraper.scrape_coins.eq_def]
    rcases hecb : ecb.isEmpty with _ | _
    · simp only [hecb, Bool.false_eq_true, if_false]
      have hne : ecb ≠ [] := fun h => by
        rw [h] at hecb
        simp at hecb
      rcases eurosOutcome with _ | coins
      · exact hne
      · rcases hcoins : coins.isEmpty with _ | _
        · simp only [hcoins, Bool.false_eq_true, if_false]
          exact merge_coin_data_ne_nil ecb coins hne
        · simp only [hcoins, if_true]
          exact hne
    · simp [hecb, CoinScraper.get_initial_coin_data]

/-! ## C9: every surfaced record is complete -/

lemma recordFields_names (r : CoinRecord) :
    (recordFields r).map Prod.fst = fieldNames := rfl

lemma string_mk_ne_empty (c : Char) (l : List Char) : String.mk (c :: l) ≠ "" := by
  intro h
  have := congrArg String.data h
  simp at this

lemma pyTake_ne_empty (n : Nat) (hn : 0 < n) (s : String) (h : s ≠ "") :
    pyTake n s ≠ "" := by
  obtain ⟨l⟩ := s
  cases l with
  | nil => exact absurd rfl h
  | cons c t =>
    obtain ⟨m, rfl⟩ : ∃ m, n = m + 1 := ⟨n - 1, by omega⟩
    exact string_mk_ne_empty c (t.take m)

lemma append_ne_empty_left (s t : String) (h : s ≠ "") : s ++ t ≠ "" := by
  obtain ⟨a⟩ := s
  obtain ⟨b⟩ := t
  cases a with
  | nil => exact absurd rfl h
  | cons c u =>
    show String.mk (c :: u ++ b) ≠ ""
    exact string_mk_ne_empty c (u ++ b)

lemma descr_default_ne_empty (title : String) (year : Int) :
    (if title ≠ "" then pyTake 200 title
     else "Pièce commémorative " ++ toString year) ≠ "" := by
  by_cases ht : title = ""
  · rw [if_neg (by simp [ht])]
    exact append_ne_empty_left _ _ (by decide)
  · rw [if_pos ht]
    exact pyTake_ne_empty 200 (by norm_num) title ht

/-- C9.  Every record any pipeline path surfaces is a complete
eight-field record (no field is ever omitted), and missing pieces of data
are replaced by fallback values: the primary extractor's image URL is
never empty (stock URL when no usable image), its country falls back to
`Unknown` when no heading exists, the secondary extractors' descriptions
are never empty (default text when no title), the container extractor's
mintage is the fixed placeholder, and merge composites and the static
fallback records are complete. -/
theorem claim_C9 :
    (∀ (box : Node) (year : Int) (r : CoinRecord),
      CoinScraper.extract_coin_from_box box year = Except.ok (some r) →
      (recordFields r).map Prod.fst = fieldNames ∧
      r.image_url ≠ "" ∧
      (findFirstP (isTag "h3") box = none → r.country = "Unknown")) ∧
    (∀ (article : Node) (country : String) (r : CoinRecord),
      TwoEurosScraper.extract_coin_from_article article country = some r →
      (recordFields r).map Prod.fst = fieldNames ∧ r.description ≠ "") ∧
    (∀ (container : Node) (parent nextSibling : Option Node) (country : String)
        (r : CoinRecord),
      TwoEurosScraper.extract_coin_from_container container parent nextSibling country
        = some r →
      (recordFields r).map Prod.fst = fieldNames ∧ r.description ≠ "" ∧
      r.mintage = 1000000) ∧
    (∀ p s : CoinRecord,
      (recordFields (CoinScraper.compositeOf p s)).map Prod.fst = fieldNames) ∧
    (∀ r ∈ CoinScraper.get_initial_coin_data,
      (recordFields r).map Prod.fst = fieldNames) := by
  refine ⟨?_, ?_, ?_, fun p s => recordFields_names _, fun r _ => recordFields_names r⟩
  · intro box year r hr
    rw [CoinScraper.extract_coin_from_box] at hr
    rcases himg : findFirstP (isTag "img") box with _ | img
    · rcases hcb : findFirstP (fun n => isTag "div" n && hasClass "content-box" n) box
        with _ | cb
      · simp [himg, hcb] at hr
      · simp only [himg, hcb, Except.ok.injEq, Option.some.injEq] at hr
        subst hr
        refine ⟨recordFields_names _, ?_, ?_⟩
        · simp [CoinScraper.unsplashDefault]
        · intro h3
          simp [h3]
    · simp only [himg] at hr
      rcases hcond : decide (attrGetD img "src" "" ≠ "" ∧
          ¬(pyStartsWith (attrGetD img "src" "") "http") = true) with _ | _
      · rw [show (if attrGetD img "src" "" ≠ "" ∧
              ¬(pyStartsWith (attrGetD img "src" "") "http") = true
            then (Except.error () : Except Unit String)
            else Except.ok (attrGetD img "src" ""))
            = Except.ok (attrGetD img "src" "") from by
            simp only [ite_eq_right_iff]
            intro hc
            exact absurd hc (of_decide_eq_false hcond)] at hr
        rcases hcb : findFirstP (fun n => isTag "div" n && hasClass "content-box" n) box
          with _ | cb
        · simp [hcb] at hr
        · simp only [hcb, Except.ok.injEq, Option.some.injEq] at hr
          subst hr
          refine ⟨recordFields_names _, ?_, ?_⟩
          · by_cases hu : attrGetD img "src" "" = ""
            · simp only [hu]
              simp [CoinScraper.unsplashDefault]
            · simp [hu]
          · intro h3
            simp [h3]
      · rw [show (if attrGetD img "src" "" ≠ "" ∧
              ¬(pyStartsWith (attrGetD img "src" "") "http") = true
            then (Except.error () : Except Unit String)
            else Except.ok (attrGetD img "src" ""))
            = Except.error () from by simp [of_decide_eq_true hcond]] at hr
        simp at hr
  · intro article country r hr
    rw [TwoEurosScraper.extract_coin_from_article] at hr
    rcases himg : findFirstP (isTag "img") article with _ | img
    · simp [himg] at hr
    · simp only [himg] at hr
      rcases hyear : searchYear (pyGetText article) with _ | y
      · simp [hyear] at hr
      · simp only [hyear, Option.some.injEq] at hr
        subst hr
        exact ⟨recordFields_names _, descr_default_ne_empty _ _⟩
  · intro container parent nextSibling country r hr
    rw [TwoEurosScraper.extract_coin_from_container] at hr
    rcases himg : findFirstP (isTag "img") container with _ | img
    · simp [himg] at hr
    · simp only [himg] at hr
      revert hr
      split
      · intro hr
        simp at hr
      · intro hr
        simp only [Option.some.injEq] at hr
        subst hr
        refine ⟨recordFields_names _, ?_, rfl⟩
        show (ite _ _ _ : String) ≠ ""
        split <;> rename_i hT <;>
          first
            | exact pyTake_ne_empty 200 (by norm_num) _ hT
            | exact append_ne_empty_left _ _ (by decide)

/-- Witness for C9 on each extraction path at concrete inputs. -/
theorem claim_C9_witness :
    ((recordFields noVolumeRecord).map Prod.fst = fieldNames ∧
      noVolumeRecord.image_url ≠ "" ∧
      (findFirstP (isTag "h3") noVolumeBox = none → noVolumeRecord.country = "Unknown")) ∧
    ((recordFields sampleArticleRecord).map Prod.fst = fieldNames ∧
      sampleArticleRecord.description ≠ "") ∧
    ((recordFields sampleContainerRecord).map Prod.fst = fieldNames ∧
      sampleContainerRecord.description ≠ "" ∧
      sampleContainerRecord.mintage = 1000000) :=
  ⟨claim_C9.1 noVolumeBox 2021 noVolumeRecord rfl,
   claim_C9.2.1 sampleArticle "san-marino" sampleArticleRecord rfl,
   claim_C9.2.2.1 sampleContainer none none "malta" sampleContainerRecord rfl⟩

end Numis
